import Mathlib

/-!
# Verification of the Gemini model router (`src/api/modelRouter.ts`)

Shallow embedding of the TypeScript model router:

* `detectComplexity` — lexical complexity scorer, `String → Int` in `[0,100]`;
* `routeGeminiModel` — routing decision built on the scorer;
* `shouldRouteModel` — capability gate;
* `getFallbackModel` — fallback resolver.

JavaScript regular-expression behaviour is embedded explicitly:

* `\b<kw>\b` with the `i` flag (word-boundary, case-insensitive keyword
  test) is `kwTest`;
* `new RegExp("\\" + ext, "g")` occurrence counting (`String.match(...g).length`)
  is `countOcc` (non-overlapping left-to-right scan);
* `/\d+\.\s/g` and `/[-*]\s/g` list-marker counting are `countNumbered`
  and `countBullet`;
* `/```/.test` is `containsSeq`;
* The JavaScript `\s` / `trim()` whitespace class is `isSpaceJS`;
* JavaScript `String.prototype.length` (UTF-16 code units) is `utf16Length`.
-/

namespace ModelRouter

/-- The JavaScript `\s` class (also the set removed by `String.prototype.trim`):
ASCII whitespace, NBSP, Ogham space, the Zs range U+2000–U+200A, line and
paragraph separators, narrow NBSP, medium mathematical space, ideographic
space, and the BOM. -/
def isSpaceJS (c : Char) : Bool :=
  c = ' ' || c = '\t' || c = '\n' || c = '\r' || c = '\x0b' || c = '\x0c' ||
  c = '\u00a0' || c = '\u1680' || ('\u2000' ≤ c && c ≤ '\u200a') ||
  c = '\u2028' || c = '\u2029' || c = '\u202f' || c = '\u205f' ||
  c = '\u3000' || c = '\ufeff'

/-- The JavaScript `\w` class `[A-Za-z0-9_]`, used by the `\b` word-boundary
assertion (the regexes in the router do not set the `u` flag). -/
def isWordChar (c : Char) : Bool :=
  c.isAlpha || c.isDigit || c = '_'

/-- Case-insensitive prefix match of a lowercase-ASCII pattern against text,
returning the remaining text after the match.  This models the `i` flag of a
JavaScript regex whose pattern consists of lowercase ASCII letters and
hyphens: a text character matches a pattern character exactly when its
ASCII-lowercasing equals it (non-ASCII text characters never match). -/
def startsWithCI : List Char → List Char → Option (List Char)
  | [], rest => some rest
  | _ :: _, [] => none
  | k :: ks, c :: cs => if c.toLower = k then startsWithCI ks cs else none

/-- `\b` holds before the match: at the start of the string, or after a
non-word character (every router keyword begins with a letter, a word
character). -/
def boundaryBefore : Option Char → Bool
  | none => true
  | some p => !isWordChar p

/-- Does `\b<kw>\b` (case-insensitive) match at the head of `text`?  Every
router keyword ends with a letter, so the trailing `\b` holds exactly when
the match is followed by the end of the string or a non-word character. -/
def matchHere (kw text : List Char) : Bool :=
  match startsWithCI kw text with
  | some [] => true
  | some (r :: _) => !isWordChar r
  | none => false

/-- Scan of `new RegExp("\\b" + kw + "\\b", "i").test(task)`: does the
word-bounded, case-insensitive keyword occur anywhere?  `prev` is the
character immediately before the current position (`none` at the start). -/
def kwTestAux (kw : List Char) : Option Char → List Char → Bool
  | _, [] => false
  | prev, c :: cs =>
    (boundaryBefore prev && matchHere kw (c :: cs)) || kwTestAux kw (some c) cs

/-- `new RegExp("\\b" + kw + "\\b", "i").test(task)` for a router
keyword. -/
def kwTest (kw task : String) : Bool :=
  kwTestAux kw.toList none task.toList

/-- Scan for `task.match(new RegExp(pat, "g"))`: the non-overlapping
left-to-right scan a global JavaScript regex performs.  `skip` is the number
of positions still to be consumed by the previous match (after a match of
length `L` the scan resumes `L` positions later), making the recursion
structural on the text. -/
def countOccAux (pat : List Char) : Nat → List Char → Nat
  | _, [] => 0
  | skip + 1, _ :: cs => countOccAux pat skip cs
  | 0, c :: cs =>
    if pat.isPrefixOf (c :: cs) then 1 + countOccAux pat (pat.length - 1) cs
    else countOccAux pat 0 cs

/-- Number of matches of `task.match(new RegExp(pat, "g"))` for a literal
pattern. -/
def countOcc (pat : List Char) (text : List Char) : Nat :=
  countOccAux pat 0 text

/-- If `/\d+\.\s/` matches at the head of `text`, the length of the (greedy)
match.  Backtracking never helps here: a shorter digit run would have to be
followed by `.`, which is not a digit, so only the maximal run can succeed. -/
def numberedMatchLen (text : List Char) : Option Nat :=
  let ds := text.takeWhile Char.isDigit
  if ds.length = 0 then none
  else
    match text.drop ds.length with
    | '.' :: w :: _ => if isSpaceJS w then some (ds.length + 2) else none
    | _ => none

/-- Scan for `task.match(/\d+\.\s/g)` with the same skip mechanism as
`countOccAux`. -/
def countNumberedAux : Nat → List Char → Nat
  | _, [] => 0
  | skip + 1, _ :: cs => countNumberedAux skip cs
  | 0, c :: cs =>
    match numberedMatchLen (c :: cs) with
    | some n => 1 + countNumberedAux (n - 1) cs
    | none => countNumberedAux 0 cs

/-- Number of matches of `task.match(/\d+\.\s/g)` (numbered-list markers). -/
def countNumbered (text : List Char) : Nat :=
  countNumberedAux 0 text

/-- Number of matches of `task.match(/[-*]\s/g)` (bullet-list markers). -/
def countBullet : List Char → Nat
  | [] => 0
  | [_] => 0
  | c :: d :: rest =>
    if (c = '-' || c = '*') && isSpaceJS d then 1 + countBullet rest
    else countBullet (d :: rest)

/-- `/pat/.test(task)` for a literal pattern: does it occur anywhere? -/
def containsSeq (pat : List Char) : List Char → Bool
  | [] => pat.isEmpty
  | c :: cs => pat.isPrefixOf (c :: cs) || containsSeq pat cs

/-- JavaScript `String.prototype.length`: the number of UTF-16 code units
(code points above U+FFFF count twice). -/
def utf16Length (s : String) : Nat :=
  (s.toList.map (fun c => if c.val < 0x10000 then 1 else 2)).sum

/-- The fixed complexity-keyword list of the router (source order). -/
def complexKeywords : List String :=
  ["system", "architecture", "design", "algorithm", "refactor", "optimize",
   "debug", "analyze", "complex", "large-scale", "distributed",
   "microservices", "performance", "scalability", "scalable", "security",
   "integration", "migration", "restructure", "overhaul", "redesign",
   "authentication", "authorization", "oauth", "implement"]

/-- The fixed simplicity-keyword list of the router (source order). -/
def simpleKeywords : List String :=
  ["write", "test", "fix", "typo", "format", "simple", "quick", "small",
   "add", "update", "comment", "documentation", "readme", "log", "print",
   "display", "show", "rename"]

/-- `complexMatches`: how many distinct complexity keywords pass the
word-bounded case-insensitive test (each keyword tested once with
`regex.test(task)`, so counted at most once). -/
def complexMatchCount (task : String) : Nat :=
  (complexKeywords.filter (fun k => kwTest k task)).length

/-- `simpleMatches`: how many distinct simplicity keywords pass the test. -/
def simpleMatchCount (task : String) : Nat :=
  (simpleKeywords.filter (fun k => kwTest k task)).length

/-- Score after the complexity-keyword step: start at 50, add 10 per
matched keyword, then `if (complexMatches * 10 > 40) score = 50 + 40`. -/
def scoreAfterComplex (task : String) : Int :=
  let cm := complexMatchCount task
  if cm * 10 > 40 then 50 + 40 else 50 + 10 * (cm : Int)

/-- Score after the simplicity-keyword step: subtract 10 per matched
keyword, then `if (simpleMatches * 10 > 40) score += simpleMatches * 10 - 40`
(the "add back the excess penalty" branch). -/
def scoreAfterSimple (task : String) : Int :=
  let sm := simpleMatchCount task
  let s := scoreAfterComplex task - 10 * (sm : Int)
  if sm * 10 > 40 then s + (10 * (sm : Int) - 40) else s

/-- The task-length adjustment (`task.length` is UTF-16 code units). -/
def lengthAdjust (task : String) : Int :=
  let taskLength := utf16Length task
  if taskLength > 500 then 15
  else if taskLength > 200 then 5
  else if taskLength < 50 then -15
  else if taskLength < 100 then -5
  else 0

/-- The file-extension list scanned by the multiple-components rule. -/
def fileExtensions : List String :=
  [".ts", ".js", ".tsx", ".jsx", ".py", ".java", ".go", ".rb", ".php", ".cs"]

/-- `fileCount`: summed occurrence counts of every extension pattern
(`task.match(new RegExp("\\" + ext, "g"))`). -/
def fileExtCount (task : String) : Nat :=
  (fileExtensions.map (fun ext => countOcc ext.toList task.toList)).sum

/-- The multiple-files adjustment: `> 3 → +15`, else `> 1 → +5`, else 0. -/
def fileExtAdjust (task : String) : Int :=
  let fileCount := fileExtCount task
  if fileCount > 3 then 15 else if fileCount > 1 then 5 else 0

/-- `listItemCount`: numbered plus bullet list markers. -/
def listItemCount (task : String) : Nat :=
  countNumbered task.toList + countBullet task.toList

/-- The list adjustment: if any marker is present,
`15 + Math.min(listItemCount, 5) * 5`. -/
def listAdjust (task : String) : Int :=
  let n := listItemCount task
  if n > 0 then 15 + (min n 5 : Int) * 5 else 0

/-- `hasCodeBlock`: `/```/.test(task)`. -/
def hasCodeBlock (task : String) : Bool :=
  containsSeq "```".toList task.toList

/-- The code-block adjustment: +10 when a triple backtick occurs. -/
def codeBlockAdjust (task : String) : Int :=
  if hasCodeBlock task then 10 else 0

/-- `Math.max(0, Math.min(100, score))`. -/
def clamp01 (s : Int) : Int :=
  max 0 (min 100 s)

/-- The score accumulated by the non-empty branch of `detectComplexity`
before the final clamp (keyword steps, then length, files, lists, code
block). -/
def unclampedScore (task : String) : Int :=
  scoreAfterSimple task + lengthAdjust task + fileExtAdjust task +
    listAdjust task + codeBlockAdjust task

/-- `detectComplexity(task)`: `!task || task.trim().length === 0` short-
circuits to the neutral 50 (a string is falsy or trims to empty exactly when
all of its characters are JavaScript whitespace); otherwise the adjustments
run in source order and the result is clamped to `[0,100]`. -/
def detectComplexity (task : String) : Int :=
  if task.toList.all isSpaceJS then 50
  else clamp01 (unclampedScore task)

/-- `Partial<RoutingConfig>`: each field independently present or absent. -/
structure PartialRoutingConfig where
  enabled : Option Bool := none
  simpleThreshold : Option Int := none
  showComplexity : Option Bool := none

/-- `RoutingConfig` with the `DEFAULT_CONFIG` values of the source. -/
structure RoutingConfig where
  enabled : Bool
  simpleThreshold : Int
  showComplexity : Bool

def DEFAULT_CONFIG : RoutingConfig :=
  { enabled := true, simpleThreshold := 50, showComplexity := true }

/-- `{ ...DEFAULT_CONFIG, ...config }`: a per-field merge, absent fields
falling back to the defaults. -/
def mergeConfig (config : PartialRoutingConfig) : RoutingConfig :=
  { enabled := config.enabled.getD DEFAULT_CONFIG.enabled
    simpleThreshold := config.simpleThreshold.getD DEFAULT_CONFIG.simpleThreshold
    showComplexity := config.showComplexity.getD DEFAULT_CONFIG.showComplexity }

/-- `RoutingResult` (the `selectedModel` union type is embedded as the two
string literals it can hold). -/
structure RoutingResult where
  selectedModel : String
  complexity : Int
  reasoning : String
  originalModel : Option String := none

/-- `routeGeminiModel(task, config)`.  The `async` wrapper in the source has no
suspension point, so the embedding is the underlying pure function. -/
def routeGeminiModel (task : String) (config : PartialRoutingConfig) :
    RoutingResult :=
  let finalConfig := mergeConfig config
  if !finalConfig.enabled then
    { selectedModel := "gemini-2.5-pro"
      complexity := 100
      reasoning := "Routing disabled, using pro model" }
  else
    let complexity := detectComplexity task
    let selectedModel :=
      if complexity < finalConfig.simpleThreshold then "gemini-2.5-flash"
      else "gemini-2.5-pro"
    { selectedModel := selectedModel
      complexity := complexity
      reasoning := toString complexity ++ "% complexity → " ++ selectedModel }

/-- `shouldRouteModel(modelId)`: `modelId.startsWith("gemini-2.5-")` (a
code-unit prefix test, embedded on the character list) or exact equality
with the legacy hybrid identifier. -/
def shouldRouteModel (modelId : String) : Bool :=
  "gemini-2.5-".toList.isPrefixOf modelId.toList ||
    modelId == "gemini-2.0-flash-thinking-exp-01-21"

/-- `getFallbackModel(requestedModel)`. -/
def getFallbackModel (requestedModel : String) : String :=
  if requestedModel == "gemini-2.5-flash" then "gemini-2.5-pro"
  else "gemini-2.5-flash"

/-! ## Helper lemmas -/

/-- Skipping positions is the same as dropping them from the text. -/
theorem countOccAux_eq_drop (pat : List Char) :
    ∀ (skip : Nat) (text : List Char),
      countOccAux pat skip text = countOccAux pat 0 (List.drop skip text) := by
  intro skip
  induction skip with
  | zero => intro text; simp
  | succ k ih =>
    intro text
    cases text with
    | nil => simp [countOccAux]
    | cons c cs => rw [countOccAux, List.drop_succ_cons, ih cs]

theorem countOcc_nil (pat : List Char) : countOcc pat [] = 0 := by
  simp [countOcc, countOccAux]

theorem countOcc_cons (pat : List Char) (c : Char) (cs : List Char) :
    countOcc pat (c :: cs) =
      if pat.isPrefixOf (c :: cs) then 1 + countOcc pat (List.drop (pat.length - 1) cs)
      else countOcc pat cs := by
  rw [countOcc, countOccAux]
  rw [countOccAux_eq_drop pat (pat.length - 1) cs]
  rfl

/-- Every occurrence the global-regex scan finds for `\.tsx` contains an
occurrence the `\.ts` scan finds, so the `.ts` count dominates the `.tsx`
count (induction on a length bound). -/
theorem countOcc_tsx_le_ts_aux :
    ∀ (n : Nat) (text : List Char), text.length ≤ n →
      countOcc ['.', 't', 's', 'x'] text ≤ countOcc ['.', 't', 's'] text := by
  intro n
  induction n with
  | zero =>
    intro text h
    have htext : text = [] := List.eq_nil_of_length_eq_zero (Nat.le_zero.mp h)
    subst htext
    simp [countOcc_nil]
  | succ n ih =>
    intro text h
    match text with
    | [] => simp [countOcc_nil]
    | c :: cs =>
      rw [countOcc_cons, countOcc_cons]
      by_cases h4 : (['.', 't', 's', 'x'].isPrefixOf (c :: cs)) = true
      · obtain ⟨rest, hrest⟩ := List.isPrefixOf_iff_prefix.mp h4
        have hc : c = '.' := by
          have := hrest
          simp only [List.cons_append, List.cons.injEq] at this
          exact this.1.symm
        have hcs : cs = 't' :: 's' :: 'x' :: rest := by
          have := hrest
          simp only [List.cons_append, List.cons.injEq] at this
          exact this.2.symm
        subst hc; subst hcs
        have hts : (['.', 't', 's'].isPrefixOf
            ('.' :: 't' :: 's' :: 'x' :: rest)) = true :=
          List.isPrefixOf_iff_prefix.mpr ⟨'x' :: rest, rfl⟩
        rw [if_pos h4, if_pos hts]
        simp only [List.length_cons, List.length_nil]
        norm_num [List.drop]
        have hx : countOcc ['.', 't', 's'] ('x' :: rest) =
            countOcc ['.', 't', 's'] rest := by
          rw [countOcc_cons]
          have : (['.', 't', 's'].isPrefixOf ('x' :: rest)) = false := by
            simp [List.isPrefixOf]
          rw [this]
          simp
        rw [hx]
        have hlen : rest.length ≤ n := by
          simp only [List.length_cons] at h; omega
        exact ih rest hlen
      · by_cases h3 : (['.', 't', 's'].isPrefixOf (c :: cs)) = true
        · obtain ⟨rest, hrest⟩ := List.isPrefixOf_iff_prefix.mp h3
          have hc : c = '.' := by
            have := hrest
            simp only [List.cons_append, List.cons.injEq] at this
            exact this.1.symm
          have hcs : cs = 't' :: 's' :: rest := by
            have := hrest
            simp only [List.cons_append, List.cons.injEq] at this
            exact this.2.symm
          subst hc; subst hcs
          rw [if_neg h4, if_pos h3]
          simp only [List.length_cons, List.length_nil]
          norm_num [List.drop]
          have hstep : countOcc ['.', 't', 's', 'x'] ('t' :: 's' :: rest) =
              countOcc ['.', 't', 's', 'x'] rest := by
            rw [countOcc_cons]
            have h1 : (['.', 't', 's', 'x'].isPrefixOf ('t' :: 's' :: rest)) = false := by
              simp [List.isPrefixOf]
            rw [h1]
            rw [countOcc_cons]
            have h2 : (['.', 't', 's', 'x'].isPrefixOf ('s' :: rest)) = false := by
              simp [List.isPrefixOf]
            rw [h2]
            simp
          rw [hstep]
          have hlen : rest.length ≤ n := by
            simp only [List.length_cons] at h; omega
          have := ih rest hlen
          omega
        · rw [if_neg h4, if_neg h3]
          have hlen : cs.length ≤ n := by
            simp only [List.length_cons] at h; omega
          exact ih cs hlen

/-! ## Claims -/

/-- C1: for every input string `task`, `detectComplexity task` is an integer
in the closed range `[0,100]`.  The embedding is a pure total Lean function,
so totality and determinism on every string (empty, whitespace-only, very
long, multi-script) are intrinsic; the range bound is proved here. -/
theorem detectComplexity_in_range (task : String) :
    0 ≤ detectComplexity task ∧ detectComplexity task ≤ 100 := by
  unfold detectComplexity clamp01
  split
  · exact ⟨by norm_num, by norm_num⟩
  · exact ⟨le_max_left 0 _, max_le (by norm_num) (min_le_left 100 _)⟩

/-- C1 witness: the bound instantiated at a concrete input. -/
theorem detectComplexity_in_range_witness :
    0 ≤ detectComplexity "Fix typo in README" ∧
      detectComplexity "Fix typo in README" ≤ 100 :=
  detectComplexity_in_range "Fix typo in README"

/-- C2: with `enabled = false` in the partial configuration, routing always
returns the capable target with complexity fixed at 100 (for every task, so
the value of the scorer is never consulted) and a reasoning string that mentions
routing being disabled. -/
theorem route_disabled (task : String) (config : PartialRoutingConfig)
    (h : config.enabled = some false) :
    (routeGeminiModel task config).selectedModel = "gemini-2.5-pro" ∧
    (routeGeminiModel task config).complexity = 100 ∧
    (routeGeminiModel task config).reasoning = "Routing disabled, using pro model" ∧
    containsSeq "disabled".toList
      (routeGeminiModel task config).reasoning.toList = true := by
  refine ⟨?_, ?_, ?_, ?_⟩
  · simp [routeGeminiModel, mergeConfig, DEFAULT_CONFIG, h]
  · simp [routeGeminiModel, mergeConfig, DEFAULT_CONFIG, h]
  · simp [routeGeminiModel, mergeConfig, DEFAULT_CONFIG, h]
  · have hr : (routeGeminiModel task config).reasoning =
        "Routing disabled, using pro model" := by
      simp [routeGeminiModel, mergeConfig, DEFAULT_CONFIG, h]
    rw [hr]
    decide

/-- C2 witness: the disabled branch at a concrete task and configuration. -/
theorem route_disabled_witness :
    (routeGeminiModel "Simple task" { enabled := some false }).selectedModel =
        "gemini-2.5-pro" ∧
    (routeGeminiModel "Simple task" { enabled := some false }).complexity = 100 ∧
    (routeGeminiModel "Simple task" { enabled := some false }).reasoning =
        "Routing disabled, using pro model" ∧
    containsSeq "disabled".toList
      (routeGeminiModel "Simple task" { enabled := some false }).reasoning.toList =
        true :=
  route_disabled "Simple task" { enabled := some false } rfl

/-- C6: empty or whitespace-only input short-circuits to exactly 50: for any
string all of whose characters are JavaScript whitespace the result is 50,
with none of the keyword/length/extension/list/fence adjustments applied (a
whitespace-only string of length under 50 would otherwise score 35). -/
theorem empty_input_neutral :
    detectComplexity "" = 50 ∧ detectComplexity "   " = 50 ∧
    ∀ task : String, task.toList.all isSpaceJS = true →
      detectComplexity task = 50 := by
  refine ⟨by decide, by decide, ?_⟩
  intro task h
  unfold detectComplexity
  rw [h]
  simp

/-- C6 witness: the short-circuit instantiated at a tab-newline-space
string. -/
theorem empty_input_neutral_witness : detectComplexity "\t\n " = 50 :=
  empty_input_neutral.2.2 "\t\n " (by decide)

/-- C8: the fallback resolver is total with no error path: the fast tier
maps to the capable tier, and every other string (the capable tier itself
included) maps to the fast tier. -/
theorem fallback_spec :
    getFallbackModel "gemini-2.5-flash" = "gemini-2.5-pro" ∧
    getFallbackModel "gemini-2.5-pro" = "gemini-2.5-flash" ∧
    ∀ m : String, m ≠ "gemini-2.5-flash" →
      getFallbackModel m = "gemini-2.5-flash" := by
  refine ⟨by decide, by decide, ?_⟩
  intro m h
  simp [getFallbackModel, h]

/-- C8 witness: the catch-all branch at an unrelated identifier. -/
theorem fallback_spec_witness : getFallbackModel "gpt-4" = "gemini-2.5-flash" :=
  fallback_spec.2.2 "gpt-4" (by decide)

/-- C3: with routing enabled in the merged configuration, the fast target
is selected exactly when the computed score is strictly below the threshold,
and the capable target exactly otherwise (so a score equal to the threshold
selects the capable target); consequently thresholds 30 and 70 select
different targets whenever the score lies strictly between them. -/
theorem route_threshold_spec :
    (∀ (task : String) (config : PartialRoutingConfig),
       (mergeConfig config).enabled = true →
       ((routeGeminiModel task config).selectedModel = "gemini-2.5-flash" ↔
          detectComplexity task < (mergeConfig config).simpleThreshold) ∧
       ((routeGeminiModel task config).selectedModel = "gemini-2.5-pro" ↔
          ¬ detectComplexity task < (mergeConfig config).simpleThreshold)) ∧
    (∀ task : String, 30 < detectComplexity task → detectComplexity task < 70 →
       (routeGeminiModel task { simpleThreshold := some 30 }).selectedModel ≠
         (routeGeminiModel task { simpleThreshold := some 70 }).selectedModel) := by
  have hsel : ∀ (task : String) (config : PartialRoutingConfig),
      (mergeConfig config).enabled = true →
      (routeGeminiModel task config).selectedModel =
        if detectComplexity task < (mergeConfig config).simpleThreshold
        then "gemini-2.5-flash" else "gemini-2.5-pro" := by
    intro task config h
    simp [routeGeminiModel, h]
  constructor
  · intro task config h
    rw [hsel task config h]
    by_cases hc : detectComplexity task < (mergeConfig config).simpleThreshold
    · rw [if_pos hc]
      exact ⟨Iff.intro (fun _ => hc) (fun _ => rfl),
        Iff.intro (fun he => absurd he (by decide)) (fun hn => absurd hc hn)⟩
    · rw [if_neg hc]
      exact ⟨Iff.intro (fun he => absurd he.symm (by decide)) (fun hlt => absurd hlt hc),
        Iff.intro (fun _ => hc) (fun _ => rfl)⟩
  · intro task h30 h70
    rw [hsel task { simpleThreshold := some 30 } rfl,
        hsel task { simpleThreshold := some 70 } rfl]
    have hm30 : (mergeConfig { simpleThreshold := some 30 }).simpleThreshold = 30 := rfl
    have hm70 : (mergeConfig { simpleThreshold := some 70 }).simpleThreshold = 70 := rfl
    rw [hm30, hm70, if_neg (by omega), if_pos (by omega)]
    decide

/-- C3 witness: at the 5-character task `"zzzzz"` (score 35, strictly
between 30 and 70) the two thresholds select different targets, and with the
default configuration the flash/threshold equivalence is instantiated. -/
theorem route_threshold_spec_witness :
    ((routeGeminiModel "zzzzz" {}).selectedModel = "gemini-2.5-flash" ↔
       detectComplexity "zzzzz" < (mergeConfig {}).simpleThreshold) ∧
    (routeGeminiModel "zzzzz" { simpleThreshold := some 30 }).selectedModel ≠
      (routeGeminiModel "zzzzz" { simpleThreshold := some 70 }).selectedModel :=
  ⟨(route_threshold_spec.1 "zzzzz" {} rfl).1,
   route_threshold_spec.2 "zzzzz" (by decide) (by decide)⟩

/-- C4: the complexity-keyword step adds 10 per distinct matched keyword and
caps the total bonus at exactly 40 (five or more matches give 40, the excess
is discarded); matching is whole-word and case-insensitive and each keyword
counts at most once ("SYSTEM" matches, three repetitions of "system" count
once, and "ecosystems" — the keyword only as a substring — does not
match). -/
theorem complex_step_spec :
    (∀ task : String, scoreAfterComplex task =
       50 + min (10 * (complexMatchCount task : Int)) 40) ∧
    complexMatchCount "The SYSTEM is down" = 1 ∧
    complexMatchCount "system system system" = 1 ∧
    complexMatchCount "ecosystems" = 0 ∧
    (∀ task : String, 5 ≤ complexMatchCount task →
       scoreAfterComplex task = 50 + 40) := by
  refine ⟨?_, by decide, by decide, by decide, ?_⟩
  · intro task
    by_cases h : complexMatchCount task * 10 > 40
    · simp only [scoreAfterComplex, if_pos h]
      rw [min_eq_right (by omega)]
    · simp only [scoreAfterComplex, if_neg h]
      rw [min_eq_left (by omega)]
  · intro task h
    simp only [scoreAfterComplex, if_pos (show complexMatchCount task * 10 > 40 by omega)]

/-- C4 witness: six distinct complexity keywords cap the bonus at 40. -/
theorem complex_step_spec_witness :
    scoreAfterComplex
      "design a distributed system architecture with security algorithm" =
      50 + 40 :=
  complex_step_spec.2.2.2.2
    "design a distributed system architecture with security algorithm"
    (by decide)

/-- C5: the simplicity-keyword step subtracts 10 per distinct matched
keyword, and when more than 4 keywords match the excess beyond the 40-point
penalty is added back, making the net contribution of the step
`-10*s + (10*s - 40)` (that is, exactly `-40`); in general the net
contribution is `-min(10*s, 40)`. -/
theorem simple_step_spec :
    (∀ task : String, scoreAfterSimple task =
       scoreAfterComplex task - min (10 * (simpleMatchCount task : Int)) 40) ∧
    (∀ task : String, 4 < simpleMatchCount task →
       scoreAfterSimple task = scoreAfterComplex task
         - 10 * (simpleMatchCount task : Int)
         + (10 * (simpleMatchCount task : Int) - 40)) := by
  constructor
  · intro task
    by_cases h : simpleMatchCount task * 10 > 40
    · simp only [scoreAfterSimple, if_pos h]
      rw [min_eq_right (by omega)]
      omega
    · simp only [scoreAfterSimple, if_neg h]
      rw [min_eq_left (by omega)]
  · intro task h
    simp only [scoreAfterSimple,
      if_pos (show simpleMatchCount task * 10 > 40 by omega)]

/-- C5 witness: five distinct simplicity keywords give net −40 (the add-back
makes `-50 + 10 = -40`). -/
theorem simple_step_spec_witness :
    scoreAfterSimple "write test fix typo format" =
      scoreAfterComplex "write test fix typo format"
        - 10 * (simpleMatchCount "write test fix typo format" : Int)
        + (10 * (simpleMatchCount "write test fix typo format" : Int) - 40) :=
  simple_step_spec.2 "write test fix typo format" (by decide)

/-- C7: the capability gate accepts exactly the strings beginning with the
code units `"gemini-2.5-"` or equal to the legacy hybrid identifier; the
named examples evaluate as the claim states, and the comparison is
case-sensitive (`"GEMINI-2.5-PRO"` is rejected). -/
theorem shouldRouteModel_spec :
    (∀ m : String, shouldRouteModel m = true ↔
       ((∃ rest : List Char, m.toList = "gemini-2.5-".toList ++ rest) ∨
        m = "gemini-2.0-flash-thinking-exp-01-21")) ∧
    shouldRouteModel "gemini-2.5-pro" = true ∧
    shouldRouteModel "gemini-2.5-flash" = true ∧
    shouldRouteModel "gemini-2.0-flash-thinking-exp-01-21" = true ∧
    shouldRouteModel "gpt-4" = false ∧
    shouldRouteModel "gemini-1.5-pro" = false ∧
    shouldRouteModel "GEMINI-2.5-PRO" = false := by
  refine ⟨?_, by decide, by decide, by decide, by decide, by decide, by decide⟩
  intro m
  unfold shouldRouteModel
  rw [Bool.or_eq_true, List.isPrefixOf_iff_prefix, beq_iff_eq]
  apply or_congr_left
  constructor
  · rintro ⟨t, ht⟩; exact ⟨t, ht.symm⟩
  · rintro ⟨t, ht⟩; exact ⟨t, ht.symm⟩

/-- C9 counterexample: the claim "a task containing a fence scores exactly
10 higher than the same task with the fence removed" fails: removing the
fence from `"sys```tem"` yields `"system"`, whose merged characters form a
complexity keyword, and both score 45 (no clamping is involved, both values
are strictly inside `[0,100]`), not 45 and 55. -/
theorem fence_plus_ten_counterexample :
    detectComplexity "sys```tem" = 45 ∧ detectComplexity "system" = 45 ∧
    detectComplexity "sys```tem" ≠ detectComplexity "system" + 10 := by
  refine ⟨by decide, by decide, by decide⟩

/-- C9 (amended): the code-fence step contributes exactly +10 before the
final clamp: for a fenced task `t` and an unfenced task `u` (neither
whitespace-only) on which every other adjustment agrees — which removing the
fence need not preserve, since it changes the length and can merge words —
the unclamped score of `t` is exactly that of `u` plus 10, and the final
scores are the clamps of the two. -/
theorem fence_step_adds_ten (t u : String)
    (ht : hasCodeBlock t = true) (hu : hasCodeBlock u = false)
    (hnt : ¬ t.toList.all isSpaceJS = true)
    (hnu : ¬ u.toList.all isSpaceJS = true)
    (heq : scoreAfterSimple t + lengthAdjust t + fileExtAdjust t + listAdjust t =
           scoreAfterSimple u + lengthAdjust u + fileExtAdjust u + listAdjust u) :
    unclampedScore t = unclampedScore u + 10 ∧
    detectComplexity t = clamp01 (unclampedScore u + 10) ∧
    detectComplexity u = clamp01 (unclampedScore u) := by
  have h1 : unclampedScore t = unclampedScore u + 10 := by
    unfold unclampedScore codeBlockAdjust
    rw [if_pos ht, if_neg (show ¬ hasCodeBlock u = true by simp [hu])]
    omega
  refine ⟨h1, ?_, ?_⟩
  · unfold detectComplexity
    rw [if_neg hnt, h1]
  · unfold detectComplexity
    rw [if_neg hnu]

/-- C9 witness: `"ab ```"` (fenced) and `"abcdef"` (unfenced) agree on all
other adjustments (both 35 unclamped without the fence step), and the fenced
one scores exactly 10 higher. -/
theorem fence_step_adds_ten_witness :
    unclampedScore "ab ```" = unclampedScore "abcdef" + 10 ∧
    detectComplexity "ab ```" = clamp01 (unclampedScore "abcdef" + 10) ∧
    detectComplexity "abcdef" = clamp01 (unclampedScore "abcdef") :=
  fence_step_adds_ten "ab ```" "abcdef"
    (by decide) (by decide) (by decide) (by decide) (by decide)

/-- C10: extension counting is substring-based, so every `.tsx` occurrence
is also counted as a `.ts` occurrence (the `.ts` count always dominates the
`.tsx` count); hence a task with exactly two `.tsx` mentions and no other
extension token has summed count 2 + 2 = 4 > 3, and the rule adds 15, not
5. -/
theorem tsx_double_count :
    (∀ text : List Char,
       countOcc ".tsx".toList text ≤ countOcc ".ts".toList text) ∧
    (∀ task : String,
       countOcc ".tsx".toList task.toList = 2 →
       countOcc ".ts".toList task.toList = 2 →
       countOcc ".js".toList task.toList = 0 →
       countOcc ".jsx".toList task.toList = 0 →
       countOcc ".py".toList task.toList = 0 →
       countOcc ".java".toList task.toList = 0 →
       countOcc ".go".toList task.toList = 0 →
       countOcc ".rb".toList task.toList = 0 →
       countOcc ".php".toList task.toList = 0 →
       countOcc ".cs".toList task.toList = 0 →
       fileExtCount task = 4 ∧ fileExtAdjust task = 15) := by
  constructor
  · intro text
    have h4 : ".tsx".toList = ['.', 't', 's', 'x'] := rfl
    have h3 : ".ts".toList = ['.', 't', 's'] := rfl
    rw [h4, h3]
    exact countOcc_tsx_le_ts_aux text.length text le_rfl
  · intro task h1 h2 h3 h4 h5 h6 h7 h8 h9 h10
    have hc : fileExtCount task = 4 := by
      unfold fileExtCount fileExtensions
      simp only [List.map_cons, List.map_nil, List.sum_cons, List.sum_nil]
      rw [h1, h2, h3, h4, h5, h6, h7, h8, h9, h10]
      norm_num
    refine ⟨hc, ?_⟩
    simp only [fileExtAdjust, hc]
    norm_num

/-- C10 witness: `"a.tsx b.tsx"` mentions two `.tsx` files and no other
extension; the summed count is 4 and the adjustment is 15. -/
theorem tsx_double_count_witness :
    fileExtCount "a.tsx b.tsx" = 4 ∧ fileExtAdjust "a.tsx b.tsx" = 15 :=
  tsx_double_count.2 "a.tsx b.tsx"
    (by decide) (by decide) (by decide) (by decide) (by decide)
    (by decide) (by decide) (by decide) (by decide) (by decide)

end ModelRouter
